import Mathlib

/-!
Verification of the S3 image resizer (`src/index.js`) against its design
specification.  The JavaScript program is shallowly embedded: its pure
string manipulation (Node `path.basename` / `path.extname`, key derivation,
content-type lookup) becomes Lean functions on character lists, and the
effectful pipeline (`processAllImages`, `processImage`, `uploadImage`,
the credential gate) becomes functions parameterised by an oracle `World`
recording which external calls (S3 get, sharp transcode, S3 put) succeed.
-/

namespace S3ip

/-- Characters of a path after stripping trailing `/` characters
(Node `path` ignores trailing separators when taking the basename). -/
def dropTrailingSlashes (cs : List Char) : List Char :=
  (cs.reverse.dropWhile (fun c => c == '/')).reverse

/-- Characters after the last `/` (the final path segment). -/
def afterLastSlash (cs : List Char) : List Char :=
  (cs.reverse.takeWhile (fun c => !(c == '/'))).reverse

/-- Node `path.basename`, at the character-list level. -/
def basenameChars (cs : List Char) : List Char :=
  afterLastSlash (dropTrailingSlashes cs)

/-- Walks the reversed basename collecting the characters that follow the
last dot; returns the extension (dot included), or `[]` when there is no
dot or the only dot starts the basename (a dotfile has no extension). -/
def extRev : List Char → List Char → List Char
  | [], _ => []
  | '.' :: rest, acc => if rest.isEmpty then [] else '.' :: acc
  | c :: rest, acc => extRev rest (c :: acc)

/-- Extension of a basename; the basename `..` is the one case where a
final dot does not open an extension. -/
def extChars (b : List Char) : List Char :=
  if b = ['.', '.'] then [] else extRev b.reverse []

/-- Node `path.extname`: the extension (with dot) of the final path
segment, `""` when there is none. -/
def extname (p : String) : String :=
  String.mk (extChars (basenameChars p.data))

/-- Node `path.basename` (one-argument form). -/
def basename (p : String) : String :=
  String.mk (basenameChars p.data)

/-- Node `path.basename(p, ext)` strips `ext` from the end of the basename
when it is a proper suffix of it. -/
def stripSuffix (b e : List Char) : List Char :=
  if e = [] then b
  else if b = e then b
  else if e.isSuffixOf b then b.take (b.length - e.length) else b

/-- `path.basename(originalKey, path.extname(originalKey))` as computed at
src/index.js:122. -/
def baseNameOf (key : String) : String :=
  String.mk (stripSuffix (basenameChars key.data) (extChars (basenameChars key.data)))

/-- JavaScript `toLowerCase` restricted to ASCII, as applied to extensions. -/
def lowerStr (s : String) : String :=
  String.mk (s.data.map Char.toLower)

/-- JavaScript truthiness of a possibly-absent string (an environment
variable or a configuration field): `undefined` and `""` are falsy. -/
def jsTruthyStr : Option String → Bool
  | none => false
  | some s => !(s == "")

/-- One entry of the size table (src/index.js:25-30): a variant name and
an optional bounding box (`null` dimensions mean passthrough). -/
structure SizeSpec where
  name : String
  width : Option Nat
  height : Option Nat
deriving DecidableEq

/-- The fixed variant catalog `this.sizes` (src/index.js:25-30). -/
def sizes : List SizeSpec :=
  [⟨"default", none, none⟩,
   ⟨"sd_320x180", some 320, some 180⟩,
   ⟨"hd_1280x720", some 1280, some 720⟩,
   ⟨"fhd_1920x1080", some 1920, some 1080⟩]

/-- The recognized image extensions `this.imageExtensions`
(src/index.js:24). -/
def imageExtensions : List String :=
  [".jpg", ".jpeg", ".png", ".gif", ".bmp", ".webp"]

/-- One listing entry as returned by the storage client
(`response.Contents`): a key and a byte size. -/
structure S3Obj where
  Key : String
  Size : Nat
deriving DecidableEq

/-- The filter applied to the listing in `listImages` (src/index.js:87-90):
keep entries whose lowercased extension is in `imageExtensions`; an absent
`Contents` yields `[]`.  The entry size is never consulted. -/
def listImagesFilter (contents : Option (List S3Obj)) : List S3Obj :=
  (contents.getD []).filter
    (fun o => imageExtensions.contains (lowerStr (extname o.Key)))

/-- `getContentType` (src/index.js:182-193): lowercased extension mapped
through the fixed table, anything else to `application/octet-stream`. -/
def getContentType (filename : String) : String :=
  let ext := lowerStr (extname filename)
  if ext = ".jpg" then "image/jpeg"
  else if ext = ".jpeg" then "image/jpeg"
  else if ext = ".png" then "image/png"
  else if ext = ".gif" then "image/gif"
  else if ext = ".bmp" then "image/bmp"
  else if ext = ".webp" then "image/webp"
  else "application/octet-stream"

/-- The new-key construction at src/index.js:142: the configured folder
path (a run-wide setting, truthiness-tested) followed by
`baseName-sizeName extension`. -/
def mkNewKey (folderPath baseName sizeName extension : String) : String :=
  if folderPath = "" then baseName ++ "-" ++ sizeName ++ extension
  else folderPath ++ "/" ++ baseName ++ "-" ++ sizeName ++ extension

/-- The derived key for one (source key, variant) pair exactly as
`processImage` computes it (src/index.js:120-142). -/
def deriveKey (folderPath key sizeName : String) : String :=
  mkNewKey folderPath (baseNameOf key) sizeName (extname key)

/-- The key-derivation rule as stated in the claim and in spec §3: parent
path of the SOURCE KEY, base name with the extension stripped,
`-variantName`, original extension. -/
def parentPathChars (cs : List Char) : List Char :=
  match cs.reverse.dropWhile (fun c => !(c == '/')) with
  | [] => []
  | _ :: t => t.reverse

/-- Claim-side derived key: built from the source key's own parent path
(spec §3 wording), for comparison with `deriveKey`. -/
def claimDerivedKey (sourceKey variantName : String) : String :=
  let parent := String.mk (parentPathChars sourceKey.data)
  (if parent = "" then "" else parent ++ "/") ++
    (baseNameOf sourceKey ++ "-" ++ variantName ++ extname sourceKey)

/-- Amended-spec derived key, following the naming convention of spec §6:
`prefixPart baseName-variantName extension` where the prefix part is the
RUN CONFIGURATION folder path (plus `/`) when non-empty. -/
def amendedDerivedKey (folderPath sourceKey variantName : String) : String :=
  (if folderPath = "" then "" else folderPath ++ "/") ++
    (baseNameOf sourceKey ++ "-" ++ variantName ++ extname sourceKey)

/-- Modelled from the spec: the resize primitive (the external sharp
library) as invoked with `fit: inside, withoutEnlargement: true` at
src/index.js:131-136 — shrink by one uniform scale factor so the result
fits the bounding box, never enlarging an image that already fits.  Only
the dimension arithmetic is modelled; the pixel data is opaque. -/
def fitInside (inW inH maxW maxH : Nat) : Nat × Nat :=
  if inW ≤ maxW ∧ inH ≤ maxH then (inW, inH)
  else if inW * maxH ≤ inH * maxW then (inW * maxH / inH, maxH)
  else (maxW, inH * maxW / inW)

/-- The bounding box the code would pass to the resize call: the JS test
`size.width && size.height` (src/index.js:129) is true only when both
dimensions are present and non-zero. -/
def boxOf (s : SizeSpec) : Option (Nat × Nat) :=
  match s.width, s.height with
  | some w, some h => if 0 < w ∧ 0 < h then some (w, h) else none
  | _, _ => none

/-- Modelled from the spec: the transcoder contract of §4.3 at the level
of image dimensions — no box means the original dimensions are preserved
(src/index.js:139), a box means fit-inside-without-enlargement
(src/index.js:131-136). -/
def transform (inW inH : Nat) (box : Option (Nat × Nat)) : Nat × Nat :=
  match box with
  | none => (inW, inH)
  | some (mW, mH) => fitInside inW inH mW mH

/-- The run configuration held by the orchestrator object
(src/index.js:17-30, filled in by `initialize`). -/
structure Config where
  bucketName : String
  folderPath : String
  makePublic : Bool
  region : String

/-- Oracle for the external effects: whether the S3 download of a key
succeeds, whether the sharp transcode of a key to a variant succeeds, and
whether the S3 upload of a derived key succeeds. -/
structure World where
  fetchOk : String → Bool
  transcodeOk : String → String → Bool
  uploadOk : String → Bool

/-- One entry of the `results` array built by `processImage`
(src/index.js:143-147); the buffer is opaque and omitted. -/
structure ProcessedImage where
  key : String
  size : String
deriving DecidableEq

/-- `processImage` (src/index.js:120-155): for each catalog entry, try the
transcode; on success push the derived key and size name, on failure log
and continue with the next entry. -/
def processImage (w : World) (cfg : Config) (originalKey : String) :
    List ProcessedImage :=
  sizes.filterMap (fun size =>
    if w.transcodeOk originalKey size.name then
      some ⟨mkNewKey cfg.folderPath (baseNameOf originalKey) size.name
              (extname originalKey), size.name⟩
    else none)

/-- The location string `uploadImage` returns (src/index.js:174-177). -/
def uploadUrl (cfg : Config) (key : String) : String :=
  if cfg.makePublic then
    "https://" ++ cfg.bucketName ++ ".s3." ++ cfg.region ++
      ".amazonaws.com/" ++ key
  else "s3://" ++ cfg.bucketName ++ "/" ++ key

/-- One entry of `uploadResults` (src/index.js:222-226). -/
structure UploadResult where
  size : String
  key : String
  url : String
deriving DecidableEq

/-- The upload loop of `processAllImages` (src/index.js:219-227).  First
component: the keys whose `PutObject` was actually sent successfully
before control left the loop.  Second component: `some uploadResults`
when every upload succeeded, `none` when one threw (the exception leaves
the loop, discarding the partial `uploadResults` array). -/
def uploadLoop (w : World) (cfg : Config) :
    List ProcessedImage → List String × Option (List UploadResult)
  | [] => ([], some [])
  | p :: rest =>
    if w.uploadOk p.key then
      (p.key :: (uploadLoop w cfg rest).1,
       ((uploadLoop w cfg rest).2).map
         (fun rs => ⟨p.size, p.key, uploadUrl cfg p.key⟩ :: rs))
    else ([], none)

/-- One element of `allResults` (src/index.js:229-232). -/
structure ObjectOutcome where
  original : String
  processed : List UploadResult
deriving DecidableEq

/-- What one iteration of the object loop (src/index.js:207-242) did:
the storage keys actually published, the `allResults` entry pushed (if
any), whether the raw bytes were staged to the temp dir, and whether the
success-path `fs.unlink` (src/index.js:237) ran. -/
structure ObjStep where
  published : List String
  outcome : Option ObjectOutcome
  staged : Bool
  unlinked : Bool
deriving DecidableEq

/-- One iteration of the object loop (src/index.js:211-241): download,
transcode all variants, upload them; any exception from download or an
upload jumps to the catch at src/index.js:239, skipping both the
`allResults.push` and the `fs.unlink`. -/
def processOneObject (w : World) (cfg : Config) (key : String) : ObjStep :=
  if w.fetchOk key then
    match (uploadLoop w cfg (processImage w cfg key)).2 with
    | some urs =>
      ⟨(uploadLoop w cfg (processImage w cfg key)).1, some ⟨key, urs⟩,
        true, true⟩
    | none =>
      ⟨(uploadLoop w cfg (processImage w cfg key)).1, none, true, false⟩
  else ⟨[], none, false, false⟩

/-- The `allResults` array accumulated over the object loop
(src/index.js:205-242): an entry per object that reached the push at
src/index.js:229. -/
def processResults (w : World) (cfg : Config) : List S3Obj → List ObjectOutcome
  | [] => []
  | img :: rest =>
    ((processOneObject w cfg img.Key).outcome).toList ++ processResults w cfg rest

/-- `processAllImages` (src/index.js:195-245): filter the listing, return
`undefined` (here `none`) when no images were found, otherwise the
accumulated `allResults`. -/
def processAllImages (w : World) (cfg : Config)
    (contents : Option (List S3Obj)) : Option (List ObjectOutcome) :=
  let images := listImagesFilter contents
  if images.length = 0 then none else some (processResults w cfg images)

/-- `run` (src/index.js:270-285) calls `displayResults` only when
`results && results.length > 0`. -/
def summaryPrinted (w : World) (cfg : Config)
    (contents : Option (List S3Obj)) : Bool :=
  match processAllImages w cfg contents with
  | none => false
  | some results => decide (0 < results.length)

/-- All storage keys put during a run, accumulated over the object loop;
the program never deletes a stored object, so these persist. -/
def publishedKeys (w : World) (cfg : Config) : List S3Obj → List String
  | [] => []
  | img :: rest =>
    (processOneObject w cfg img.Key).published ++ publishedKeys w cfg rest

/-- The staged local files still present in the temp dir after the object
loop has run over the given listing: each object stages
`basename(key)` on a successful download (src/index.js:114-115) and only
the success path unlinks it (src/index.js:237). -/
def stagedResidue (w : World) (cfg : Config) : List S3Obj → List String
  | [] => []
  | img :: rest =>
    (let st := processOneObject w cfg img.Key
     if st.staged && !st.unlinked then [basename img.Key] else []) ++
      stagedResidue w cfg rest

/-- The relevant environment variables for the credential gate. -/
structure Env where
  awsAccessKeyId : Option String
  awsSecretAccessKey : Option String

/-- The module-top-level credential gate (src/index.js:289-297): the
process exits when either environment variable is falsy.  Note that no
ambient credential provider is consulted. -/
def credentialGateExits (e : Env) : Bool :=
  !jsTruthyStr e.awsAccessKeyId || !jsTruthyStr e.awsSecretAccessKey

/-- Modelled from the spec: the startup-fatality rule of §6 — fatal
exactly when explicit credentials are absent AND no ambient provider
(CLI profile, instance role) is available. -/
def specStartupFatal (e : Env) (ambientAvailable : Bool) : Bool :=
  (!jsTruthyStr e.awsAccessKeyId || !jsTruthyStr e.awsSecretAccessKey) &&
    !ambientAvailable

/-- A run configuration with an empty folder path. -/
def cfg0 : Config := ⟨"bucket", "", true, "us-east-1"⟩

/-- World where every external call succeeds except the upload of the
`sd_320x180` derivative of `photo.jpg`. -/
def wPub2 : World :=
  ⟨fun _ => true, fun _ _ => true, fun k => !(k == "photo-sd_320x180.jpg")⟩

/-- World where downloads and uploads succeed but every transcode fails. -/
def wNoTrans : World := ⟨fun _ => true, fun _ _ => false, fun _ => true⟩

/-- World where only the download of `a.jpg` fails. -/
def wAfetch : World :=
  ⟨fun k => !(k == "a.jpg"), fun _ _ => true, fun _ => true⟩

/-- World where every download fails. -/
def wFetchFail : World := ⟨fun _ => false, fun _ _ => true, fun _ => true⟩

/-- World where every upload fails. -/
def wUpFail : World := ⟨fun _ => true, fun _ _ => true, fun _ => false⟩

/-- World where every external call succeeds except the upload of the
`hd_1280x720` derivative of `photo.jpg`. -/
def wHdFail : World :=
  ⟨fun _ => true, fun _ _ => true, fun k => !(k == "photo-hd_1280x720.jpg")⟩


/-- String concatenation is associative (used to relate the two shapes of
the derived-key expression). -/
theorem string_append_assoc (a b c : String) : a ++ b ++ c = a ++ (b ++ c) := by
  cases a
  cases b
  cases c
  show String.mk _ = String.mk _
  rw [List.append_assoc]

/-- The keys actually put by the upload loop form the longest prefix of
the processed list on which every upload succeeds. -/
theorem uploadLoop_fst (w : World) (cfg : Config) (ps : List ProcessedImage) :
    (uploadLoop w cfg ps).1
      = (ps.takeWhile (fun p => w.uploadOk p.key)).map (fun p => p.key) := by
  induction ps with
  | nil => rfl
  | cons p rest ih =>
    cases h : w.uploadOk p.key <;>
      simp [uploadLoop, h, List.takeWhile_cons, ih]

/-- The upload loop completes without an exception exactly when every
upload of the processed list succeeds. -/
theorem uploadLoop_isSome (w : World) (cfg : Config)
    (ps : List ProcessedImage) :
    (uploadLoop w cfg ps).2.isSome = ps.all (fun p => w.uploadOk p.key) := by
  induction ps with
  | nil => rfl
  | cons p rest ih =>
    cases h : w.uploadOk p.key <;> simp [uploadLoop, h, ih]

/-- `allResults` is the list of pushed outcomes over the image list. -/
theorem processResults_eq_filterMap (w : World) (cfg : Config)
    (l : List S3Obj) :
    processResults w cfg l
      = l.filterMap (fun img => (processOneObject w cfg img.Key).outcome) := by
  induction l with
  | nil => rfl
  | cons img rest ih =>
    cases h : (processOneObject w cfg img.Key).outcome <;>
      simp [processResults, h, ih, List.filterMap_cons]

/-- After a successful download, the published keys of one object are the
successful prefix of its upload loop, whether or not the loop threw. -/
theorem processOneObject_published (w : World) (cfg : Config) (key : String)
    (h : w.fetchOk key = true) :
    (processOneObject w cfg key).published
      = ((processImage w cfg key).takeWhile
          (fun p => w.uploadOk p.key)).map (fun p => p.key) := by
  unfold processOneObject
  rw [if_pos h]
  split <;> simp [uploadLoop_fst]

/-- An `allResults` entry is pushed for an object exactly when its
download and every upload of its transcoded variants succeeded. -/
theorem processOneObject_outcome_isSome (w : World) (cfg : Config)
    (key : String) :
    ((processOneObject w cfg key).outcome).isSome
      = (w.fetchOk key &&
          (processImage w cfg key).all (fun p => w.uploadOk p.key)) := by
  cases hf : w.fetchOk key with
  | false => simp [processOneObject, hf]
  | true =>
    have hiso := uploadLoop_isSome w cfg (processImage w cfg key)
    unfold processOneObject
    rw [if_pos hf]
    cases h2 : (uploadLoop w cfg (processImage w cfg key)).2 <;>
      rw [h2] at hiso <;> simp at hiso ⊢ <;> exact hiso
/-- Claim C6, confirmed: `getContentType` is total — for every input key
it returns one of the six table MIME types or the generic binary type;
`.png` maps to `image/png` and the unrecognized `.xyz` maps to
`application/octet-stream`, never an error. -/
theorem getContentType_total_table :
    (∀ f : String,
      getContentType f ∈
        ["image/jpeg", "image/png", "image/gif", "image/bmp", "image/webp",
         "application/octet-stream"])
    ∧ getContentType "photo.png" = "image/png"
    ∧ getContentType "file.xyz" = "application/octet-stream" := by
  refine ⟨fun f => ?_, by decide, by decide⟩
  unfold getContentType
  dsimp only
  repeat' split
  all_goals decide

/-- Claim C7, counterexample: a zero-length listing entry with a
recognized extension is KEPT by the filter, so zero-length entries are not
excluded as the claim states. -/
theorem zeroLength_entry_kept_concrete :
    listImagesFilter (some [⟨"empty.jpg", 0⟩]) = [⟨"empty.jpg", 0⟩] := by
  decide

/-- Claim C7, amended: the enumerator keeps exactly the listing entries
whose lowercased extension is in the recognized set, regardless of their
size (zero-length entries with a recognized extension are kept), and the
filter raises no error. -/
theorem listImages_filter_characterization :
    ∀ (l : List S3Obj) (o : S3Obj),
      o ∈ listImagesFilter (some l) ↔
        o ∈ l ∧ lowerStr (extname o.Key) ∈ imageExtensions := by
  intro l o
  unfold listImagesFilter
  rw [List.mem_filter]
  exact and_congr_right fun _ => List.elem_iff

/-- Claim C8, code bug: with both credential environment variables unset
but an ambient provider available, the module-level gate still exits,
although the spec (and the program's own message and README) say startup
should proceed on the ambient provider; the gate never consults one. -/
theorem credentialGate_ignores_ambient :
    credentialGateExits ⟨none, none⟩ = true ∧
    specStartupFatal ⟨none, none⟩ true = false := by
  decide

/-- Claim C3, counterexample: with an empty configured folder path the
code derives `photo-hd_1280x720.jpg` from source key `a/b/photo.jpg`,
dropping the source key's parent path `a/b` that the claim requires. -/
theorem derivedKey_ignores_parentPath_concrete :
    deriveKey "" "a/b/photo.jpg" "hd_1280x720" = "photo-hd_1280x720.jpg"
    ∧ claimDerivedKey "a/b/photo.jpg" "hd_1280x720"
        = "a/b/photo-hd_1280x720.jpg"
    ∧ ¬ deriveKey "" "a/b/photo.jpg" "hd_1280x720"
          = claimDerivedKey "a/b/photo.jpg" "hd_1280x720" := by
  decide

/-- Claim C3, amended: the derived key is built from the RUN'S CONFIGURED
folder path (kept verbatim, with a `/`, when non-empty), then the base
name with extension stripped, `-variantName`, and the original extension;
when the configured folder is `a/b` the spec's example key
`a/b/photo-hd_1280x720.jpg` is produced for `a/b/photo.jpg`. -/
theorem derivedKey_uses_configured_folder :
    (∀ fp key v, deriveKey fp key v = amendedDerivedKey fp key v)
    ∧ deriveKey "a/b" "a/b/photo.jpg" "hd_1280x720"
        = "a/b/photo-hd_1280x720.jpg" := by
  constructor
  · intro fp key v
    unfold deriveKey mkNewKey amendedDerivedKey
    by_cases h : fp = ""
    · rw [if_pos h, if_pos h]
      rfl
    · rw [if_neg h, if_neg h]
      simp [string_append_assoc]
  · decide

/-- Claim C4, counterexample: with one discovered image whose download
fails, enumeration completed and no fatal error occurred, yet the final
summary is not printed (the result list is empty and `run` skips
`displayResults`). -/
theorem allFailed_summary_skipped_concrete :
    summaryPrinted wFetchFail cfg0 (some [⟨"a.jpg", 1⟩]) = false := by
  decide

/-- Claim C4, amended: absent fatal errors, the final summary is printed
exactly when at least one discovered object produced an outcome (its
download and all its uploads succeeded); when every object failed, or no
image was discovered, the summary is skipped. -/
theorem summary_printed_iff_some_outcome :
    ∀ (w : World) (cfg : Config) (contents : Option (List S3Obj)),
      summaryPrinted w cfg contents = true ↔
        ∃ img ∈ listImagesFilter contents,
          (processOneObject w cfg img.Key).outcome ≠ none := by
  intro w cfg contents
  by_cases h : (listImagesFilter contents).length = 0
  · have hnil : listImagesFilter contents = [] := List.length_eq_zero.mp h
    unfold summaryPrinted processAllImages
    rw [if_pos h]
    simp [hnil]
  · unfold summaryPrinted processAllImages
    rw [if_neg h]
    dsimp only
    rw [decide_eq_true_iff, processResults_eq_filterMap, List.length_pos,
      Ne, List.filterMap_eq_nil_iff]
    push_neg
    rfl
/-- Claim C1, counterexample: every transcode of `photo.jpg` succeeds (4
variants produced) but the upload of its second variant throws; the
exception escapes to the object-level catch, so the remaining variants
are never uploaded (only the first derived key was published) and the
object's outcomes are not recorded at all. -/
theorem publishFailure_stops_siblings_concrete :
    (processImage wPub2 cfg0 "photo.jpg").length = 4
    ∧ (processOneObject wPub2 cfg0 "photo.jpg").published
        = ["photo-default.jpg"]
    ∧ (processOneObject wPub2 cfg0 "photo.jpg").outcome = none := by
  decide

/-- Claim C1, amended: a TRANSCODE failure aborts only that variant — each
variant yields a processed result exactly when its own transcode succeeds,
independent of its siblings — but a PUBLISH failure is caught at the
object boundary, not the variant boundary: it stops the object's
remaining uploads (the published keys are the successful prefix) and
drops the object's outcome record, while the run continues with the other
objects. -/
theorem failure_scopes_amended :
    (∀ (w : World) (cfg : Config) (key : String) (s : SizeSpec), s ∈ sizes →
      ((∃ p ∈ processImage w cfg key, p.size = s.name) ↔
        w.transcodeOk key s.name = true))
    ∧ (∀ (w : World) (cfg : Config) (key : String),
        w.fetchOk key = true →
        ¬ (processImage w cfg key).all (fun p => w.uploadOk p.key) = true →
        (processOneObject w cfg key).outcome = none ∧
        (processOneObject w cfg key).published
          = ((processImage w cfg key).takeWhile
              (fun p => w.uploadOk p.key)).map (fun p => p.key))
    ∧ (∀ (w : World) (cfg : Config) (img : S3Obj) (rest : List S3Obj),
        (processOneObject w cfg img.Key).outcome = none →
        processResults w cfg (img :: rest) = processResults w cfg rest) := by
  refine ⟨?_, ?_, ?_⟩
  · intro w cfg key s hs
    constructor
    · rintro ⟨p, hp, hsz⟩
      obtain ⟨t, ht, hf⟩ := List.mem_filterMap.mp hp
      by_cases htr : w.transcodeOk key t.name = true
      · rw [if_pos htr] at hf
        have hpt : p.size = t.name := by
          cases (Option.some.injEq _ _).mp hf
          rfl
        have hname : t.name = s.name := by rw [← hpt, hsz]
        rw [← hname]
        exact htr
      · rw [if_neg htr] at hf
        exact absurd hf (Option.noConfusion)
    · intro ht
      refine ⟨⟨mkNewKey cfg.folderPath (baseNameOf key) s.name (extname key),
        s.name⟩, List.mem_filterMap.mpr ⟨s, hs, ?_⟩, rfl⟩
      rw [if_pos ht]
  · intro w cfg key hf hall
    have hiso := uploadLoop_isSome w cfg (processImage w cfg key)
    have h2 : (uploadLoop w cfg (processImage w cfg key)).2 = none := by
      cases h2 : (uploadLoop w cfg (processImage w cfg key)).2 with
      | none => rfl
      | some v =>
        rw [h2, Option.isSome_some] at hiso
        exact absurd hiso.symm hall
    constructor
    · unfold processOneObject
      rw [if_pos hf, h2]
    · exact processOneObject_published w cfg key hf
  · intro w cfg img rest h
    simp [processResults, h]

/-- Claim C1, amended, witness: in the world where only the `sd_320x180`
upload of `photo.jpg` fails, the object's outcome is dropped and only the
prefix before the failing upload was published. -/
theorem failure_scopes_amended_witness :
    (processOneObject wPub2 cfg0 "photo.jpg").outcome = none ∧
    (processOneObject wPub2 cfg0 "photo.jpg").published
      = ((processImage wPub2 cfg0 "photo.jpg").takeWhile
          (fun p => wPub2.uploadOk p.key)).map (fun p => p.key) :=
  failure_scopes_amended.2.1 wPub2 cfg0 "photo.jpg" (by decide) (by decide)

/-- Claim C2, counterexample: two objects are discovered but the download
of `a.jpg` fails, so the run records only ONE outcome — `a.jpg` gets no
outcome at all rather than an outcome with zero successes. -/
theorem fetchFailure_drops_outcome_concrete :
    (listImagesFilter (some [⟨"a.jpg", 5⟩, ⟨"b.png", 5⟩])).length = 2
    ∧ (processResults wAfetch cfg0
        (listImagesFilter (some [⟨"a.jpg", 5⟩, ⟨"b.png", 5⟩]))).map
          (fun oc => oc.original) = ["b.png"] := by
  decide

/-- Claim C2, amended: an outcome is appended for an object exactly when
its download and every upload of its transcoded variants succeed; an
object all of whose transcodes failed still gets an outcome with zero
successes, but an object whose download (or any upload) failed gets no
outcome — the run nevertheless continues with the remaining objects. -/
theorem outcome_recording_amended :
    (∀ (w : World) (cfg : Config) (img : S3Obj) (rest : List S3Obj),
      processResults w cfg (img :: rest)
        = ((processOneObject w cfg img.Key).outcome).toList ++
            processResults w cfg rest)
    ∧ (∀ (w : World) (cfg : Config) (key : String),
        ((processOneObject w cfg key).outcome).isSome
          = (w.fetchOk key &&
              (processImage w cfg key).all (fun p => w.uploadOk p.key)))
    ∧ (∀ (w : World) (cfg : Config) (key : String),
        w.fetchOk key = true →
        (∀ s ∈ sizes, w.transcodeOk key s.name = false) →
        (processOneObject w cfg key).outcome = some ⟨key, []⟩) := by
  refine ⟨fun _ _ _ _ => rfl, processOneObject_outcome_isSome, ?_⟩
  intro w cfg key hf hnone
  have hempty : processImage w cfg key = [] := by
    apply List.filterMap_eq_nil_iff.mpr
    intro s hs
    simp [hnone s hs]
  unfold processOneObject
  rw [if_pos hf, hempty]
  rfl

/-- Claim C2, amended, witness: with the download of `photo.jpg`
succeeding and every transcode failing, the object still gets an outcome
with an empty success list. -/
theorem outcome_recording_amended_witness :
    (processOneObject wNoTrans cfg0 "photo.jpg").outcome
      = some ⟨"photo.jpg", []⟩ :=
  outcome_recording_amended.2.2 wNoTrans cfg0 "photo.jpg" (by decide)
    (by decide)

/-- Claim C9, counterexample: the uploads of `a.jpg` fail, so after its
end-of-object boundary the staged local copy `a.jpg` is still present in
the temp directory (the success-path unlink never ran); it is retained
into the processing of any next object and only removed by the run-level
cleanup. -/
theorem failed_object_file_retained_concrete :
    stagedResidue wUpFail cfg0 [⟨"a.jpg", 1⟩] = ["a.jpg"] := by
  decide

/-- Claim C9, amended: an object's staged file is deleted at the
end-of-object boundary only on the full-success path; it remains staged
past that boundary exactly when the download succeeded but processing
then failed (some upload threw), and is reclaimed only by the run-level
cleanup of the whole temp directory. -/
theorem staging_release_iff_success :
    ∀ (w : World) (cfg : Config) (key : String),
      ((processOneObject w cfg key).staged = true ∧
        (processOneObject w cfg key).unlinked = false) ↔
      (w.fetchOk key = true ∧
        (processImage w cfg key).all (fun p => w.uploadOk p.key) = false) := by
  intro w cfg key
  cases hf : w.fetchOk key with
  | false => simp [processOneObject, hf]
  | true =>
    have hiso := uploadLoop_isSome w cfg (processImage w cfg key)
    unfold processOneObject
    rw [if_pos hf]
    cases h2 : (uploadLoop w cfg (processImage w cfg key)).2 with
    | none =>
      rw [h2, Option.isSome_none] at hiso
      exact ⟨fun _ => ⟨rfl, hiso.symm⟩, fun _ => ⟨rfl, rfl⟩⟩
    | some v =>
      rw [h2, Option.isSome_some] at hiso
      constructor
      · rintro ⟨-, hbad⟩
        exact Bool.noConfusion hbad
      · rintro ⟨-, hall⟩
        rw [← hiso] at hall
        exact Bool.noConfusion hall

/-- Claim C10, confirmed: publishing is not atomic — after a successful
download the published keys are exactly the successful prefix of the
variant uploads (nothing after the first failing upload is sent), and
every key of that prefix persists in the set of keys the whole run put to
storage (the program has no rollback or delete). -/
theorem publish_prefix_persists :
    ∀ (w : World) (cfg : Config) (img : S3Obj) (rest : List S3Obj),
      w.fetchOk img.Key = true →
      (processOneObject w cfg img.Key).published
        = ((processImage w cfg img.Key).takeWhile
            (fun p => w.uploadOk p.key)).map (fun p => p.key)
      ∧ ∀ k ∈ (processOneObject w cfg img.Key).published,
          k ∈ publishedKeys w cfg (img :: rest) := by
  intro w cfg img rest hf
  refine ⟨processOneObject_published w cfg img.Key hf, ?_⟩
  intro k hk
  unfold publishedKeys
  exact List.mem_append_left _ hk

/-- Claim C10, witness: with the `hd_1280x720` upload of `photo.jpg`
failing, the published keys are the prefix before it and persist in the
run's published-key set. -/
theorem publish_prefix_persists_witness :
    (processOneObject wHdFail cfg0 (S3Obj.mk "photo.jpg" 1).Key).published
      = ((processImage wHdFail cfg0 (S3Obj.mk "photo.jpg" 1).Key).takeWhile
          (fun p => wHdFail.uploadOk p.key)).map (fun p => p.key)
    ∧ ∀ k ∈ (processOneObject wHdFail cfg0
          (S3Obj.mk "photo.jpg" 1).Key).published,
        k ∈ publishedKeys wHdFail cfg0 [S3Obj.mk "photo.jpg" 1] :=
  publish_prefix_persists wHdFail cfg0 (S3Obj.mk "photo.jpg" 1) []
    (by decide)

/-- In the shrink branch where the height bound is the tighter one, the
input height is at least the bound. -/
theorem fit_height_binding (inW inH maxW maxH : Nat) (hbW : 0 < maxW)
    (hbH : 0 < maxH) (hnf : ¬(inW ≤ maxW ∧ inH ≤ maxH))
    (hcmp : inW * maxH ≤ inH * maxW) : maxH ≤ inH := by
  by_contra h
  push_neg at h
  have hw : maxW < inW := by
    rcases Nat.lt_or_ge maxW inW with h1 | h1
    · exact h1
    · exact absurd ⟨h1, Nat.le_of_lt h⟩ hnf
  have : inH * maxW < inW * maxH :=
    calc inH * maxW < maxH * maxW := mul_lt_mul_of_pos_right h hbW
      _ = maxW * maxH := Nat.mul_comm _ _
      _ < inW * maxH := mul_lt_mul_of_pos_right hw hbH
  exact absurd hcmp (Nat.not_le_of_lt this)

/-- In the shrink branch where the width bound is the tighter one, the
input width is at least the bound. -/
theorem fit_width_binding (inW inH maxW maxH : Nat) (hbW : 0 < maxW)
    (hbH : 0 < maxH) (hnf : ¬(inW ≤ maxW ∧ inH ≤ maxH))
    (hcmp : ¬ inW * maxH ≤ inH * maxW) : maxW ≤ inW := by
  by_contra h
  push_neg at h
  have hh : maxH < inH := by
    rcases Nat.lt_or_ge maxH inH with h1 | h1
    · exact h1
    · exact absurd ⟨Nat.le_of_lt h, h1⟩ hnf
  have : inW * maxH < inH * maxW :=
    calc inW * maxH < maxW * maxH := mul_lt_mul_of_pos_right h hbH
      _ = maxH * maxW := Nat.mul_comm _ _
      _ < inH * maxW := mul_lt_mul_of_pos_right hh hbW
  exact hcmp (Nat.le_of_lt this)

/-- Claim C5, confirmed: the transcoder as configured by the code
(`fit: inside`, `withoutEnlargement: true`) preserves the original
dimensions when the variant has no bounding box; with a bounding box it
returns the input unchanged when it already fits (never enlarging —
100×100 against 1920×1080 stays 100×100), never exceeds the input
dimensions, fits inside the box whenever it had to shrink, and scales
both dimensions by one uniform ratio (aspect preserved within integer
rounding). -/
theorem transform_contract :
    (∀ s : SizeSpec, boxOf s = none →
      ∀ inW inH, transform inW inH (boxOf s) = (inW, inH))
    ∧ (∀ (s : SizeSpec) (maxW maxH : Nat), boxOf s = some (maxW, maxH) →
        ∀ inW inH, 0 < inW → 0 < inH →
        (inW ≤ maxW → inH ≤ maxH →
          transform inW inH (boxOf s) = (inW, inH))
        ∧ (transform inW inH (boxOf s)).1 ≤ inW
        ∧ (transform inW inH (boxOf s)).2 ≤ inH
        ∧ (¬(inW ≤ maxW ∧ inH ≤ maxH) →
            (transform inW inH (boxOf s)).1 ≤ maxW ∧
            (transform inW inH (boxOf s)).2 ≤ maxH)
        ∧ (transform inW inH (boxOf s) = (inW, inH)
            ∨ transform inW inH (boxOf s) = (inW * maxH / inH, maxH)
            ∨ transform inW inH (boxOf s) = (maxW, inH * maxW / inW))) := by
  constructor
  · intro s hbox inW inH
    rw [hbox]
    rfl
  · intro s maxW maxH hbox inW inH hW hH
    have hpos : 0 < maxW ∧ 0 < maxH := by
      unfold boxOf at hbox
      rcases s with ⟨n, ow, oh⟩
      cases ow <;> cases oh <;> simp at hbox
      rcases hbox with ⟨hp, hw, hh⟩
      rw [← hw, ← hh]
      exact hp
    obtain ⟨hbW, hbH⟩ := hpos
    rw [hbox]
    show (inW ≤ maxW → inH ≤ maxH → fitInside inW inH maxW maxH = (inW, inH))
      ∧ (fitInside inW inH maxW maxH).1 ≤ inW
      ∧ (fitInside inW inH maxW maxH).2 ≤ inH
      ∧ (¬(inW ≤ maxW ∧ inH ≤ maxH) →
          (fitInside inW inH maxW maxH).1 ≤ maxW ∧
          (fitInside inW inH maxW maxH).2 ≤ maxH)
      ∧ (fitInside inW inH maxW maxH = (inW, inH)
          ∨ fitInside inW inH maxW maxH = (inW * maxH / inH, maxH)
          ∨ fitInside inW inH maxW maxH = (maxW, inH * maxW / inW))
    by_cases hfit : inW ≤ maxW ∧ inH ≤ maxH
    · rw [fitInside, if_pos hfit]
      exact ⟨fun _ _ => rfl, Nat.le_refl _, Nat.le_refl _,
        fun h => absurd hfit h, Or.inl rfl⟩
    · by_cases hcmp : inW * maxH ≤ inH * maxW
      · rw [fitInside, if_neg hfit, if_pos hcmp]
        have hHle : maxH ≤ inH :=
          fit_height_binding inW inH maxW maxH hbW hbH hfit hcmp
        have hwle : inW * maxH / inH ≤ inW := by
          have h1 : inW * maxH ≤ inW * inH := Nat.mul_le_mul_left inW hHle
          have h2 : inW * maxH / inH ≤ inW * inH / inH :=
            Nat.div_le_div_right h1
          rw [Nat.mul_div_cancel _ hH] at h2
          exact h2
        have hwbox : inW * maxH / inH ≤ maxW := by
          have h2 : inW * maxH / inH ≤ inH * maxW / inH :=
            Nat.div_le_div_right hcmp
          rw [Nat.mul_comm inH maxW, Nat.mul_div_cancel _ hH] at h2
          exact h2
        refine ⟨fun h1 h2 => absurd ⟨h1, h2⟩ hfit, hwle, hHle, ?_, ?_⟩
        · exact fun _ => ⟨hwbox, Nat.le_refl _⟩
        · exact Or.inr (Or.inl rfl)
      · rw [fitInside, if_neg hfit, if_neg hcmp]
        have hWle : maxW ≤ inW :=
          fit_width_binding inW inH maxW maxH hbW hbH hfit hcmp
        have hhle : inH * maxW / inW ≤ inH := by
          have h1 : inH * maxW ≤ inH * inW := Nat.mul_le_mul_left inH hWle
          have h2 : inH * maxW / inW ≤ inH * inW / inW :=
            Nat.div_le_div_right h1
          rw [Nat.mul_div_cancel _ hW] at h2
          exact h2
        have hhbox : inH * maxW / inW ≤ maxH := by
          have hlt : inH * maxW ≤ inW * maxH :=
            Nat.le_of_lt (Nat.lt_of_not_le hcmp)
          have h2 : inH * maxW / inW ≤ inW * maxH / inW :=
            Nat.div_le_div_right hlt
          rw [Nat.mul_comm inW maxH, Nat.mul_div_cancel _ hW] at h2
          exact h2
        refine ⟨fun h1 h2 => absurd ⟨h1, h2⟩ hfit, hWle, hhle, ?_, ?_⟩
        · exact fun _ => ⟨Nat.le_refl _, hhbox⟩
        · exact Or.inr (Or.inr rfl)

/-- Claim C5, witness: the `fhd_1920x1080` variant applied to a 100×100
input leaves it 100×100, and the `default` variant has no bounding box
and preserves any dimensions. -/
theorem transform_contract_witness :
    transform 640 480 (boxOf ⟨"default", none, none⟩) = (640, 480)
    ∧ transform 100 100 (boxOf ⟨"fhd_1920x1080", some 1920, some 1080⟩)
        = (100, 100) :=
  ⟨transform_contract.1 ⟨"default", none, none⟩ (by decide) 640 480,
   (transform_contract.2 ⟨"fhd_1920x1080", some 1920, some 1080⟩ 1920 1080
      (by decide) 100 100 (by decide) (by decide)).1 (by decide) (by decide)⟩

end S3ip
